import Mathlib

/-!
Verification of the query-params demo application (src/index.tsx).

The development embeds the core logic of the application: the filter
parser (parseFilterInput), the product lookup (getAllFilteredProducts and
its SQL WHERE clause), the filter URL builder (buildFilterUrl with
encodeURIComponent), and the three search route handlers together with
their rendered responses. The embedding follows the middle snapshot of
src/index.tsx, whose line numbers match the cited sources.
-/

namespace GetToGetting

/-- Filter record produced by parseFilterInput: a size string plus an
optional free-text query. In the source the size field has the TS union
type Size = "small" | "medium" | "large" and the query field has type
string | null; both are strings at runtime, so both are modelled as
strings, the query as an Option. -/
structure Filter where
  size : String
  query : Option String
deriving DecidableEq

/-- Translation of parseFilterInput (src/index.tsx, lines 344-363).
The JS condition if (input.size) is string truthiness: it holds exactly
when the input is present and non-empty. The query is passed through the
nullish-coalescing operator (input.query ?? null), which keeps an
empty-string query as an empty string. -/
def parseFilterInput (size? : Option String) (query? : Option String) : Filter :=
  let size :=
    match size? with
    | some s =>
      if s ≠ "" then
        if s = "small" ∨ s = "medium" ∨ s = "large" then s else "small"
      else "small"
    | none => "small"
  { size := size, query := query? }

/-- Modelled from the spec: the size rule as the spec states it. If size
is present and exactly one of the three enumerated values, use it;
otherwise default to small. Used only to compare parseFilterInput against
the spec wording. -/
def specSizeRule (size? : Option String) : String :=
  match size? with
  | some s => if s = "small" ∨ s = "medium" ∨ s = "large" then s else "small"
  | none => "small"

/-- Product record (src/index.tsx, lines 365-375): id assigned by the
data store, title, and size, all immutable once seeded. -/
structure Product where
  id : Nat
  title : String
  size : String
deriving DecidableEq

/-- ASCII lower-casing of one character, as performed by the SQLite
LOWER function used in the WHERE clause: only the letters A-Z are
mapped, every other character is unchanged. -/
def lowerChar (c : Char) : Char :=
  if c.isUpper then Char.ofNat (c.toNat + 32) else c

/-- ASCII lower-casing of a string, viewed as its character list. -/
def lowerStr (s : String) : List Char := s.data.map lowerChar

/-- SQLite LIKE pattern matching (without ESCAPE), on character lists:
the percent wildcard matches any sequence of characters, the underscore
wildcard matches exactly one character, and every other pattern
character matches itself. Structural recursion on the pattern; the
percent case tries every suffix of the text. -/
def likeMatch : List Char → List Char → Bool
  | [], s => s.isEmpty
  | p :: ps, s =>
    if p = '%' then (s.tails).any (fun t => likeMatch ps t)
    else
      match s with
      | [] => false
      | c :: cs => (p = '_' || p = c) && likeMatch ps cs

/-- Translation of the WHERE clause of the prepared statement
(src/index.tsx, lines 417-421):
(? IS NULL OR LOWER(title) LIKE LOWER(?)) AND size = ?, where the first
two placeholders receive the formatted query pattern and the third the
size. -/
def sqlFilterWhere (formattedQuery : Option String) (size : String) (p : Product) : Bool :=
  (match formattedQuery with
   | none => true
   | some pat => likeMatch (lowerStr pat) (lowerStr p.title))
  && (p.size == size)

/-- Translation of getAllFilteredProducts (src/index.tsx, lines 422-426).
The JS expression (query ? `%$\x7bquery\x7d%` : null) is string
truthiness: a null or empty query yields a null pattern. The database is
passed explicitly as the list of seeded rows in insertion order; a
SELECT without ORDER BY on this table returns rows in that order. -/
def getAllFilteredProducts (db : List Product) (query : Option String) (size : String) :
    List Product :=
  let formattedQuery :=
    match query with
    | some q => if q = "" then none else some ("%" ++ q ++ "%")
    | none => none
  db.filter (sqlFilterWhere formattedQuery size)

/-- Modelled from the spec: the matching rule as the spec states it, the
title contains the query as a case-insensitive substring. Used only to
compare the SQL LIKE lookup against the spec wording. -/
def titleContainsCI (title : String) (q : String) : Bool :=
  decide (lowerStr q <:+: lowerStr title)

/-- Hexadecimal digit (uppercase), used by percent-encoding. -/
def hexDigit (n : Nat) : Char :=
  if n < 10 then Char.ofNat (48 + n) else Char.ofNat (55 + n)

/-- Percent-encoding of a single byte, uppercase hex as produced by
encodeURIComponent. -/
def byteHex (b : Nat) : String :=
  "%" ++ String.singleton (hexDigit (b / 16)) ++ String.singleton (hexDigit (b % 16))

/-- UTF-8 bytes of one character. -/
def utf8Bytes (c : Char) : List Nat :=
  let n := c.toNat
  if n < 128 then [n]
  else if n < 2048 then [192 + n / 64, 128 + n % 64]
  else if n < 65536 then [224 + n / 4096, 128 + (n / 64) % 64, 128 + n % 64]
  else [240 + n / 262144, 128 + (n / 4096) % 64, 128 + (n / 64) % 64, 128 + n % 64]

/-- Characters that encodeURIComponent leaves unescaped: ASCII letters
and digits and - _ . ! ~ * \x27 ( ). -/
def uriUnescaped (c : Char) : Bool :=
  c.isAlpha || c.isDigit || c = '-' || c = '_' || c = '.' || c = '!' || c = '~'
    || c = '*' || c = '\x27' || c = '(' || c = ')'

/-- The JS encodeURIComponent function: every character outside the
unescaped set is written as the percent-encoded bytes of its UTF-8
encoding. -/
def encodeURIComponent (s : String) : String :=
  String.join (s.data.map (fun c =>
    if uriUnescaped c then String.singleton c
    else String.join ((utf8Bytes c).map byteHex)))

/-- Translation of buildFilterUrl (src/index.tsx, lines 439-446). The
JS conditional (query ? ... : "") is string truthiness: a null or empty
query contributes no query segment. -/
def buildFilterUrl (baseUrl : String) (query : Option String) (size : String) : String :=
  let formattedQuery :=
    match query with
    | some q => if q = "" then "" else "&query=" ++ encodeURIComponent q
    | none => ""
  baseUrl ++ "?size=" ++ size ++ formattedQuery

/-- HTML escaping of one character as performed by the hono/jsx renderer
on interpolated children and attribute values. -/
def escapeChar (c : Char) : String :=
  if c = '&' then "&amp;"
  else if c = '<' then "&lt;"
  else if c = '>' then "&gt;"
  else if c = '"' then "&quot;"
  else if c = '\x27' then "&#39;"
  else String.singleton c

/-- HTML escaping of a string. -/
def escapeHtml (s : String) : String := String.join (s.data.map escapeChar)

/-- Rendering of the FilterFields component (src/index.tsx, lines
469-500): the size select with the selected flags, the query text input
echoing the query value, and the submit button. -/
def renderFilterFields (size : String) (query : String) : String :=
  "<label>Size:<select name=\"size\" data-bind=\"size\"><option value=\"\">All</option>"
  ++ "<option value=\"small\"" ++ (if size = "small" then " selected" else "") ++ ">Small</option>"
  ++ "<option value=\"medium\"" ++ (if size = "medium" then " selected" else "") ++ ">Medium</option>"
  ++ "<option value=\"large\"" ++ (if size = "large" then " selected" else "") ++ ">Large</option>"
  ++ "</select></label>"
  ++ "<label>Search:<input type=\"text\" name=\"query\" value=\"" ++ escapeHtml query
  ++ "\" placeholder=\"Search...\" data-bind=\"query\"/></label>"
  ++ "<button type=\"submit\">Search</button>"

/-- Rendering of one product list item (src/index.tsx, lines 507-513). -/
def renderProduct (p : Product) : String :=
  "<li><a href=\"/product/" ++ toString p.id ++ "\">" ++ escapeHtml p.title
  ++ " | " ++ escapeHtml p.size ++ "</a></li>"

/-- Rendering of the Products component (src/index.tsx, lines 502-517). -/
def renderProducts (ps : List Product) : String :=
  "<div><h1>Products</h1><ul>" ++ String.join (ps.map renderProduct) ++ "</ul></div>"

/-- Rendering of the Root component (src/index.tsx, lines 451-467): the
full HTML document shell around the children. -/
def renderRoot (children : String) : String :=
  "<html lang=\"en\"><head><meta charSet=\"utf-8\"/><meta name=\"viewport\" content=\"width=device-width, initial-scale=1.0\"/><title>Query Params Example</title><script type=\"module\" src=\"https://cdn.jsdelivr.net/gh/starfederation/datastar@1.0.0-RC.6/bundles/datastar.js\"></script></head><body>"
  ++ children ++ "</body></html>"

/-- Streamed instruction sent on a datastar SSE stream: either a DOM
patch carrying an HTML fragment, or a script to execute. -/
inductive SSEEvent where
  | patchElements (html : String)
  | executeScript (script : String)
deriving DecidableEq

/-- Response of a route handler: a full HTML document (c.html with the
Root shell), an SSE stream of instructions (SSE.stream), or plain text
(c.text). -/
inductive Response where
  | html (doc : String)
  | sse (events : List SSEEvent)
  | text (body : String)
deriving DecidableEq

/-- Fragment-mode detection shared by the routes (src/index.tsx, lines
618 and 687): the datastar-request header must be present with the exact
value true. -/
def isFragmentRequest (dsHeader : Option String) : Bool := dsHeader == some "true"

/-- Route handler for /search-mpa (src/index.tsx, lines 564-580). It
never inspects the datastar-request header and always renders the full
Root document. The form field echoes the raw query parameter, not the
parsed one. -/
def searchMpa (db : List Product) (_dsHeader : Option String)
    (size? query? : Option String) : Response :=
  let f := parseFilterInput size? query?
  let filteredProducts := getAllFilteredProducts db f.query f.size
  Response.html (renderRoot (
    "<form data-on:input=\"evt.target.type === \x27select\x27 ? evt.target.form.requestSubmit() : null\">"
    ++ renderFilterFields f.size (query?.getD "")
    ++ "</form>"
    ++ renderProducts filteredProducts))

/-- Route handler for /search-update-url-client-side (src/index.tsx,
lines 595-641). In fragment mode it streams a single DOM patch of the
body; otherwise it renders the full Root document. The URL update lives
in the client-side submit expression only. -/
def searchUpdateUrlClientSide (db : List Product) (dsHeader : Option String)
    (size? query? : Option String) : Response :=
  let f := parseFilterInput size? query?
  let filteredProducts := getAllFilteredProducts db f.query f.size
  let updateQueryParams := "window.history.replaceState(\x7b\x7d, \x27\x27, new URL(window.location.pathname+\x27?size=\x27+$size+\x27&query=\x27+$query, window.location.href).toString())"
  let getFilteredProducts := "@get(\x27/search-update-url-client-side?size=\x27+$size+\x27&query=\x27+$query)"
  let header :=
    "<form data-signals:size=\"" ++ escapeHtml ("\x27" ++ f.size ++ "\x27")
    ++ "\" data-signals:query=\"" ++ escapeHtml ("\x27" ++ f.query.getD "" ++ "\x27")
    ++ "\" data-on:input=\"" ++ escapeHtml ("evt.target.form.requestSubmit()")
    ++ "\" data-on:submit=\"" ++ escapeHtml ("evt.preventDefault && " ++ getFilteredProducts ++ " && " ++ updateQueryParams)
    ++ "\">"
    ++ renderFilterFields f.size (f.query.getD "")
    ++ "</form>"
  if isFragmentRequest dsHeader then
    Response.sse [SSEEvent.patchElements
      ("<body>" ++ header ++ renderProducts filteredProducts ++ "</body>")]
  else
    Response.html (renderRoot (header ++ renderProducts filteredProducts))

/-- Script streamed by the server-patch route to replace browser history
state with the server-computed filter URL (src/index.tsx, line 704). -/
def historyReplaceScript (url : String) : String :=
  "window.history.replaceState(\x7b\x7d, \x27\x27, new URL(\x27" ++ url
  ++ "\x27, window.location.href).toString())"

/-- Route handler for /search-server-patch (src/index.tsx, lines
660-717). The filter URL is computed once by buildFilterUrl from the
request path and the parsed filter, rendered as the bookmark link href,
and, in fragment mode, also streamed as a history-replace script right
after the DOM patch. -/
def searchServerPatch (db : List Product) (dsHeader : Option String)
    (size? query? : Option String) : Response :=
  let f := parseFilterInput size? query?
  let filteredProducts := getAllFilteredProducts db f.query f.size
  let filterUrl := buildFilterUrl ("/search-server-patch") f.query f.size
  let getFilteredProducts := "@get(\x27/search-server-patch?size=\x27+$size+\x27&query=\x27+$query)"
  let header :=
    "<form data-signals:size=\"" ++ escapeHtml ("\x27" ++ f.size ++ "\x27")
    ++ "\" data-signals:query=\"" ++ escapeHtml ("\x27" ++ f.query.getD "" ++ "\x27")
    ++ "\" data-on:input=\"" ++ escapeHtml ("evt.target.form.requestSubmit()")
    ++ "\" data-on:submit=\"" ++ escapeHtml ("evt.preventDefault && " ++ getFilteredProducts)
    ++ "\">"
    ++ renderFilterFields f.size (f.query.getD "")
    ++ "</form>"
    ++ "<a " ++ ("href=\"" ++ escapeHtml filterUrl ++ "\"")
    ++ " style=\"display:block;padding-bottom:20px\">Bookmark or share</a>"
  if isFragmentRequest dsHeader then
    Response.sse
      [SSEEvent.patchElements
        ("<body>" ++ header ++ renderProducts filteredProducts ++ "</body>"),
       SSEEvent.executeScript (historyReplaceScript filterUrl)]
  else
    Response.html (renderRoot (header ++ renderProducts filteredProducts))

/-- Test on whether a string starts with the given marker, on character
lists. -/
def strStartsWith (s marker : String) : Bool := marker.data.isPrefixOf s.data

/-- Test on whether a string contains the given marker as a substring,
on character lists. -/
def strContains (hay needle : String) : Bool := decide (needle.data <:+: hay.data)

/-- Test on whether one streamed instruction carries an html root
element. -/
def eventHasHtmlRoot : SSEEvent → Bool
  | SSEEvent.patchElements h => strStartsWith h ("<html")
  | SSEEvent.executeScript _ => false

/-- Test on whether a response is or contains a full HTML document,
that is a document whose root element is html. -/
def hasHtmlRoot : Response → Bool
  | Response.html doc => strStartsWith doc ("<html")
  | Response.sse events => events.any eventHasHtmlRoot
  | Response.text _ => false

/-- Seeded record set of the end-to-end scenario: ids in insertion
order as assigned by the autoincrement column. -/
def seedDb : List Product :=
  [⟨1, "Amazing Widget 1", "small"⟩, ⟨2, "Great Tool 2", "medium"⟩,
   ⟨3, "Super Gadget 3", "small"⟩]

/-- C2: parseFilterInput treats the raw size exactly as the spec size
rule does: a raw size that is exactly small, medium or large is kept
unchanged, every other input (absent and empty string included) falls
back to small. Both sides are total functions, so no error is raised in
either case. -/
theorem parseFilterInput_size_eq_specSizeRule (size? query? : Option String) :
    (parseFilterInput size? query?).size = specSizeRule size? := by
  rcases size? with _ | s
  · rfl
  · simp only [parseFilterInput, specSizeRule]
    by_cases he : s = ""
    · subst he
      simp
    · simp [he]

/-- C8: the size field of every constructed Filter is one of the three
enumerated values and is in particular never the empty string. -/
theorem parseFilterInput_size_enum_invariant (size? query? : Option String) :
    ((parseFilterInput size? query?).size = "small"
      ∨ (parseFilterInput size? query?).size = "medium"
      ∨ (parseFilterInput size? query?).size = "large")
    ∧ (parseFilterInput size? query?).size ≠ "" := by
  rw [parseFilterInput_size_eq_specSizeRule]
  rcases size? with _ | s
  · exact ⟨Or.inl rfl, by decide⟩
  · simp only [specSizeRule]
    split
    · rename_i hv
      rcases hv with h | h | h <;> subst h
      · exact ⟨Or.inl rfl, by decide⟩
      · exact ⟨Or.inr (Or.inl rfl), by decide⟩
      · exact ⟨Or.inr (Or.inr rfl), by decide⟩
    · exact ⟨Or.inl rfl, by decide⟩

/-- C8 witness: the invariant evaluated at a concrete invalid input. -/
theorem parseFilterInput_size_enum_invariant_witness :
    (((parseFilterInput (some "bogus") (some "")).size = "small"
      ∨ (parseFilterInput (some "bogus") (some "")).size = "medium"
      ∨ (parseFilterInput (some "bogus") (some "")).size = "large")
    ∧ (parseFilterInput (some "bogus") (some "")).size ≠ "") :=
  parseFilterInput_size_enum_invariant (some "bogus") (some "")

/-- C4 counterexample: on a present but empty raw query the constructed
Filter carries an empty-string query, not an absent one, refuting the
claim that the constructed query is never the empty string. -/
theorem parseFilterInput_empty_query_kept :
    (parseFilterInput none (some "")).query = some ""
    ∧ (some "" : Option String) ≠ none := by
  exact ⟨rfl, by decide⟩

/-- C4 amended: parseFilterInput passes the raw query through unchanged
(input.query ?? null). A present non-empty query is kept as-is, an
absent query stays absent, and a present empty-string query is kept as
the empty string rather than being turned into an absent one. -/
theorem parseFilterInput_query_passthrough (size? query? : Option String) :
    (parseFilterInput size? query?).query = query? := rfl

/-- C9: for every database and size, looking up with a present but
empty query produces exactly the same result sequence as looking up
with an absent query, because both produce a null match pattern. -/
theorem getAllFilteredProducts_empty_query_eq_none (db : List Product) (size : String) :
    getAllFilteredProducts db (some "") size = getAllFilteredProducts db none size := rfl

/-- C10: for every base path and size, buildFilterUrl with a present but
empty query omits the query segment entirely, returning exactly the base
path followed by the size parameter, the same string as with an absent
query. -/
theorem buildFilterUrl_empty_query_eq_none (baseUrl size : String) :
    buildFilterUrl baseUrl (some "") size = baseUrl ++ "?size=" ++ size
    ∧ buildFilterUrl baseUrl (some "") size = buildFilterUrl baseUrl none size := by
  constructor
  · show baseUrl ++ "?size=" ++ size ++ "" = baseUrl ++ "?size=" ++ size
    simp
  · rfl

/-- Helper: a Nat below the surrogate range converts through Char.ofNat
and back unchanged. -/
theorem char_toNat_ofNat_valid (n : Nat) (h : n < 55296) : (Char.ofNat n).toNat = n := by
  rw [Char.ofNat, dif_pos (Or.inl h)]
  rfl

/-- Helper: arithmetic characterisation of lowerChar. -/
theorem lowerChar_toNat (c : Char) :
    (lowerChar c).toNat = if 65 ≤ c.toNat ∧ c.toNat ≤ 90 then c.toNat + 32 else c.toNat := by
  unfold lowerChar
  have hup : c.isUpper = true ↔ 65 ≤ c.toNat ∧ c.toNat ≤ 90 := by
    simp [Char.isUpper, Char.toNat, Char.le_def]
    exact ⟨fun h => ⟨h.1, h.2⟩, fun h => ⟨h.1, h.2⟩⟩
  by_cases h : c.isUpper = true
  · rw [if_pos h, if_pos (hup.mp h)]
    have hb := (hup.mp h).2
    exact char_toNat_ofNat_valid _ (by omega)
  · rw [if_neg h, if_neg (fun hh => h (hup.mpr hh))]

/-- Helper: characters with equal code points are equal. -/
theorem char_toNat_inj {a b : Char} (hab : a.toNat = b.toNat) : a = b :=
  Char.eq_of_val_eq (UInt32.toNat.inj hab)

/-- Helper: lower-casing never produces a LIKE wildcard from a
non-wildcard character. -/
theorem lowerChar_wild (c : Char) (h1 : c ≠ '%') (h2 : c ≠ '_') :
    lowerChar c ≠ '%' ∧ lowerChar c ≠ '_' := by
  have hs := lowerChar_toNat c
  have hpc : ('%' : Char).toNat = 37 := by decide
  have huc : ('_' : Char).toNat = 95 := by decide
  constructor
  · intro heq
    rw [heq, hpc] at hs
    split_ifs at hs with hcond
    · omega
    · exact h1 (char_toNat_inj (by omega))
  · intro heq
    rw [heq, huc] at hs
    split_ifs at hs with hcond
    · omega
    · exact h2 (char_toNat_inj (by omega))

/-- Helper: unfolding equation of likeMatch at a percent head. -/
theorem likeMatch_pct (ps s : List Char) :
    likeMatch ('%' :: ps) s = (s.tails).any (fun t => likeMatch ps t) := by
  simp [likeMatch]

/-- Helper: unfolding equation of likeMatch at a non-wildcard head. -/
theorem likeMatch_lit (p : Char) (hp : p ≠ '%') (hu : p ≠ '_') (ps : List Char) :
    ∀ s, likeMatch (p :: ps) s
      = (match s with
         | [] => false
         | c :: cs => (p = c) && likeMatch ps cs) := by
  intro s
  cases s with
  | nil => simp [likeMatch, hp]
  | cons c cs => simp [likeMatch, hp, hu]

/-- Helper: a lone percent pattern matches every text. -/
theorem likeMatch_one_pct (t : List Char) : likeMatch ['%'] t = true := by
  rw [likeMatch_pct]
  simp only [List.any_eq_true]
  exact ⟨[], by simp [List.mem_tails], by simp [likeMatch]⟩

/-- Helper: a wildcard-free pattern followed by a percent matches
exactly the texts having the pattern as a prefix. -/
theorem likeMatch_lit_append_pct (q : List Char) (hq : ∀ c ∈ q, c ≠ '%' ∧ c ≠ '_') :
    ∀ t, (likeMatch (q ++ ['%']) t = true ↔ q <+: t) := by
  induction q with
  | nil =>
    intro t
    simp [likeMatch_one_pct]
  | cons a q ih =>
    intro t
    have ha := hq a (by simp)
    have hq2 : ∀ c ∈ q, c ≠ '%' ∧ c ≠ '_' := fun c hc => hq c (by simp [hc])
    rw [List.cons_append, likeMatch_lit a ha.1 ha.2]
    cases t with
    | nil => simp
    | cons c cs =>
      simp only [Bool.and_eq_true, decide_eq_true_eq, List.cons_prefix_cons]
      rw [ih hq2 cs]

/-- Helper: a wildcard-free pattern between two percents matches exactly
the texts containing the pattern as a contiguous substring. -/
theorem likeMatch_pct_sandwich (q : List Char) (hq : ∀ c ∈ q, c ≠ '%' ∧ c ≠ '_')
    (s : List Char) :
    (likeMatch ('%' :: (q ++ ['%'])) s = true ↔ q <:+: s) := by
  rw [likeMatch_pct]
  simp only [List.any_eq_true, List.mem_tails]
  constructor
  · rintro ⟨t, hts, hm⟩
    exact List.infix_iff_prefix_suffix.mpr ⟨t, (likeMatch_lit_append_pct q hq t).mp hm, hts⟩
  · intro h
    obtain ⟨t, htp, hts⟩ := List.infix_iff_prefix_suffix.mp h
    exact ⟨t, hts, (likeMatch_lit_append_pct q hq t).mpr htp⟩

/-- Helper: lower-casing the constructed LIKE pattern wraps the lowered
query between percents. -/
theorem lowerStr_pattern (q : String) :
    lowerStr ("%" ++ q ++ "%") = '%' :: (lowerStr q ++ ['%']) := by
  have hd : ("%" ++ q ++ "%").data = '%' :: (q.data ++ ['%']) := rfl
  have hpct : lowerChar '%' = '%' := by decide
  simp [lowerStr, hd, hpct]

/-- Helper: the lowered form of a wildcard-free query is wildcard
free. -/
theorem lowerStr_wild (q : String) (hq : ∀ c ∈ q.data, c ≠ '%' ∧ c ≠ '_') :
    ∀ c ∈ lowerStr q, c ≠ '%' ∧ c ≠ '_' := by
  intro c hc
  simp only [lowerStr, List.mem_map] at hc
  obtain ⟨a, ha, rfl⟩ := hc
  exact lowerChar_wild a (hq a ha).1 (hq a ha).2

/-- Helper: two booleans agreeing as propositions are equal. -/
theorem bool_eq_of_iff {a b : Bool} (h : a = true ↔ b = true) : a = b := by
  cases a <;> cases b <;> simp_all

/-- Helper: on a wildcard-free query the SQL WHERE clause coincides with
the spec-side case-insensitive containment conjoined with the size
equality. -/
theorem sqlFilterWhere_ci (q : String) (hq : ∀ c ∈ q.data, c ≠ '%' ∧ c ≠ '_')
    (size : String) (p : Product) :
    sqlFilterWhere (some ("%" ++ q ++ "%")) size p
      = (titleContainsCI p.title q && (p.size == size)) := by
  unfold sqlFilterWhere titleContainsCI
  have hlike : likeMatch (lowerStr ("%" ++ q ++ "%")) (lowerStr p.title)
      = decide (lowerStr q <:+: lowerStr p.title) := by
    apply bool_eq_of_iff
    rw [lowerStr_pattern, decide_eq_true_iff]
    exact likeMatch_pct_sandwich (lowerStr q) (lowerStr_wild q hq) (lowerStr p.title)
  rw [show (match some ("%" ++ q ++ "%") with
       | none => true
       | some pat => likeMatch (lowerStr pat) (lowerStr p.title))
      = likeMatch (lowerStr ("%" ++ q ++ "%")) (lowerStr p.title) from rfl, hlike]

/-- C1 counterexample: the underscore is a LIKE wildcard, so a record
whose title contains no underscore is still returned for the query
consisting of one underscore, refuting the claimed equivalence with
case-insensitive substring containment. -/
theorem getAllFilteredProducts_wildcard_counterexample :
    getAllFilteredProducts [⟨1, "X", "small"⟩] (some "_") "small" = [⟨1, "X", "small"⟩]
    ∧ titleContainsCI ("X") ("_") = false := by
  constructor
  · decide
  · decide

/-- C1 amended: the lookup returns exactly the records of the requested
size whose title matches the LIKE pattern built from the query. When the
query contains no LIKE wildcard (percent or underscore), that matching
is exactly case-insensitive substring containment, so the result is the
subsequence of records whose size equals the filter size and whose title
contains the query case-insensitively; with an absent query every record
of the requested size is returned. -/
theorem getAllFilteredProducts_ci_substring :
    (∀ (db : List Product) (q size : String), q ≠ "" →
      (∀ c ∈ q.data, c ≠ '%' ∧ c ≠ '_') →
      getAllFilteredProducts db (some q) size
        = db.filter (fun p => titleContainsCI p.title q && (p.size == size)))
    ∧ (∀ (db : List Product) (size : String),
      getAllFilteredProducts db none size = db.filter (fun p => p.size == size)) := by
  constructor
  · intro db q size hne hq
    unfold getAllFilteredProducts
    rw [show (match some q with
         | some qq => if qq = "" then (none : Option String) else some ("%" ++ qq ++ "%")
         | none => none)
        = (if q = "" then (none : Option String) else some ("%" ++ q ++ "%")) from rfl,
      if_neg hne]
    exact List.filter_congr (fun p _ => sqlFilterWhere_ci q hq size p)
  · intro db size
    unfold getAllFilteredProducts
    apply List.filter_congr
    intro p _
    unfold sqlFilterWhere
    simp

/-- C1 witness: the amended lookup equation evaluated on a concrete
seeded record and a concrete wildcard-free query. -/
theorem getAllFilteredProducts_ci_substring_witness :
    getAllFilteredProducts [⟨1, "Amazing Widget 1", "small"⟩] (some "widget") "small"
      = [⟨1, "Amazing Widget 1", "small"⟩].filter
          (fun p => titleContainsCI p.title ("widget") && (p.size == "small")) :=
  getAllFilteredProducts_ci_substring.1
    [⟨1, "Amazing Widget 1", "small"⟩] ("widget") ("small") (by decide) (by decide)

/-- C7: on the seeded three-record set, the request size=small with
query=widget parses to the small filter with the widget query and
returns exactly the Amazing Widget 1 record, and the request with no
parameters parses to the default small filter with no query and returns
exactly the two small records in insertion order. -/
theorem seeded_scenario_results :
    (getAllFilteredProducts seedDb (parseFilterInput (some "small") (some "widget")).query
        (parseFilterInput (some "small") (some "widget")).size
      = [⟨1, "Amazing Widget 1", "small"⟩])
    ∧ (getAllFilteredProducts seedDb (parseFilterInput none none).query
        (parseFilterInput none none).size
      = [⟨1, "Amazing Widget 1", "small"⟩, ⟨3, "Super Gadget 3", "small"⟩]) := by
  constructor
  · decide
  · decide

/-- Helper: a string keeps its marker prefix under appending on the
right. -/
theorem strStartsWith_append (a b m : String) (h : strStartsWith a m = true) :
    strStartsWith (a ++ b) m = true := by
  unfold strStartsWith at h ⊢
  rw [List.isPrefixOf_iff_prefix] at h ⊢
  rw [show (a ++ b).data = a.data ++ b.data from rfl]
  exact h.trans (List.prefix_append a.data b.data)

/-- Helper: a string whose second character is b does not start with the
html marker. -/
theorem strStartsWith_html_false_of_b (s : String) (rest : List Char)
    (hd : s.data = '<' :: 'b' :: rest) : strStartsWith s ("<html") = false := by
  unfold strStartsWith
  rw [hd, show ("<html" : String).data = ['<', 'h', 't', 'm', 'l'] from rfl]
  simp [List.isPrefixOf]

/-- Helper: every string contains itself. -/
theorem strContains_refl (n : String) : strContains n n = true :=
  decide_eq_true (List.infix_refl n.data)

/-- Helper: containment is preserved by prepending. -/
theorem strContains_append_left (a h n : String) (hc : strContains h n = true) :
    strContains (a ++ h) n = true := by
  unfold strContains at hc ⊢
  rw [decide_eq_true_iff] at hc ⊢
  rw [show (a ++ h).data = a.data ++ h.data from rfl]
  exact hc.trans (List.suffix_append a.data h.data).isInfix

/-- Helper: containment is preserved by appending. -/
theorem strContains_append_right (h b n : String) (hc : strContains h n = true) :
    strContains (h ++ b) n = true := by
  unfold strContains at hc ⊢
  rw [decide_eq_true_iff] at hc ⊢
  rw [show (h ++ b).data = h.data ++ b.data from rfl]
  exact hc.trans (List.prefix_append h.data b.data).isInfix

/-- C3 counterexample: a present but empty query is rendered with no
query segment at all, refuting the claim that the query segment appears
exactly when a query is present. -/
theorem buildFilterUrl_present_empty_no_query_segment :
    (some ("" : String)).isSome = true
    ∧ strContains (buildFilterUrl ("/x") (some "") ("large")) ("&query=") = false := by
  constructor
  · rfl
  · decide

/-- C3 amended: buildFilterUrl is deterministic (it is a pure function,
so two calls on identical arguments yield the identical string), and it
returns the base path followed by the size parameter and, exactly when
the query is present and non-empty, the percent-encoded query segment;
a present but empty query is rendered like an absent one. On the
concrete input of the claim it yields /x?size=large&query=foo%20bar. -/
theorem buildFilterUrl_shape (baseUrl : String) (q : Option String) (size : String) :
    buildFilterUrl baseUrl q size = buildFilterUrl baseUrl q size
    ∧ (∀ s : String, q = some s → s ≠ "" →
        buildFilterUrl baseUrl q size
          = baseUrl ++ "?size=" ++ size ++ ("&query=" ++ encodeURIComponent s))
    ∧ ((q = none ∨ q = some "") →
        buildFilterUrl baseUrl q size = baseUrl ++ "?size=" ++ size)
    ∧ buildFilterUrl ("/x") (some "foo bar") ("large") = "/x?size=large&query=foo%20bar" := by
  refine ⟨rfl, ?_, ?_, ?_⟩
  · rintro s rfl hs
    show baseUrl ++ "?size=" ++ size
        ++ (if s = "" then "" else "&query=" ++ encodeURIComponent s) = _
    rw [if_neg hs]
  · rintro (rfl | rfl)
    · show baseUrl ++ "?size=" ++ size ++ "" = baseUrl ++ "?size=" ++ size
      simp
    · show baseUrl ++ "?size=" ++ size ++ "" = baseUrl ++ "?size=" ++ size
      simp
  · decide

/-- C3 witness: the amended shape evaluated at the concrete input of the
claim, with its hypotheses discharged there. -/
theorem buildFilterUrl_shape_witness :
    buildFilterUrl ("/x") (some "foo bar") ("large")
      = "/x" ++ "?size=" ++ "large" ++ ("&query=" ++ encodeURIComponent ("foo bar")) :=
  (buildFilterUrl_shape ("/x") (some "foo bar") ("large")).2.1 ("foo bar") rfl (by decide)

/-- C5 counterexample: the search-mpa route ignores the datastar-request
header, so a request carrying the header with value true still receives
a full HTML document, refuting the claim for that route. -/
theorem searchMpa_full_document_despite_header :
    isFragmentRequest (some "true") = true
    ∧ hasHtmlRoot (searchMpa [] (some "true") none none) = true := by
  constructor
  · rfl
  · unfold searchMpa
    simp only [hasHtmlRoot]
    unfold renderRoot
    apply strStartsWith_append
    apply strStartsWith_append
    decide

set_option maxRecDepth 8192 in
/-- C5 amended: for the two fragment-capable routes, a request with the
datastar-request header equal to true receives an SSE response whose
patched fragment has no html root element, and any other request
receives a full HTML document; the search-mpa route however always
returns a full HTML document, even when the header is present. -/
theorem response_document_shapes (db : List Product) (size? query? dsHeader : Option String) :
    hasHtmlRoot (searchMpa db dsHeader size? query?) = true
    ∧ (isFragmentRequest dsHeader = true →
        hasHtmlRoot (searchUpdateUrlClientSide db dsHeader size? query?) = false
        ∧ hasHtmlRoot (searchServerPatch db dsHeader size? query?) = false)
    ∧ (isFragmentRequest dsHeader = false →
        hasHtmlRoot (searchUpdateUrlClientSide db dsHeader size? query?) = true
        ∧ hasHtmlRoot (searchServerPatch db dsHeader size? query?) = true) := by
  refine ⟨?_, ?_, ?_⟩
  · unfold searchMpa
    simp only [hasHtmlRoot]
    unfold renderRoot
    apply strStartsWith_append
    apply strStartsWith_append
    decide
  · intro h
    unfold searchUpdateUrlClientSide searchServerPatch
    rw [h]
    constructor
    · rw [if_pos rfl]
      simp only [hasHtmlRoot, eventHasHtmlRoot, List.any_cons, List.any_nil, Bool.or_false]
      exact strStartsWith_html_false_of_b _ _ rfl
    · rw [if_pos rfl]
      simp only [hasHtmlRoot, eventHasHtmlRoot, List.any_cons, List.any_nil, Bool.or_false]
      exact strStartsWith_html_false_of_b _ _ rfl
  · intro h
    unfold searchUpdateUrlClientSide searchServerPatch
    rw [h]
    constructor
    · rw [if_neg (by simp)]
      simp only [hasHtmlRoot]
      unfold renderRoot
      apply strStartsWith_append
      apply strStartsWith_append
      decide
    · rw [if_neg (by simp)]
      simp only [hasHtmlRoot]
      unfold renderRoot
      apply strStartsWith_append
      apply strStartsWith_append
      decide

/-- C5 witness: both implications of the shape theorem evaluated at
concrete headers. -/
theorem response_document_shapes_witness :
    (hasHtmlRoot (searchUpdateUrlClientSide [] (some "true") none none) = false
      ∧ hasHtmlRoot (searchServerPatch [] (some "true") none none) = false)
    ∧ (hasHtmlRoot (searchUpdateUrlClientSide [] none none none) = true
      ∧ hasHtmlRoot (searchServerPatch [] none none none) = true) :=
  ⟨(response_document_shapes [] none none (some "true")).2.1 rfl,
   (response_document_shapes [] none none none).2.2 rfl⟩

/-- C6: in fragment mode the server-patch handler streams exactly one
DOM patch followed by one history-replace script; the URL in the script
is buildFilterUrl applied to the request path and the parsed filter, and
the patched fragment renders the bookmark link with that very same URL
as its href (HTML-attribute escaped), so a single buildFilterUrl call
site is the source of both. -/
theorem searchServerPatch_single_source_url (db : List Product)
    (size? query? : Option String) :
    ∃ frag : String,
      searchServerPatch db (some "true") size? query?
        = Response.sse [SSEEvent.patchElements frag,
            SSEEvent.executeScript (historyReplaceScript
              (buildFilterUrl ("/search-server-patch")
                (parseFilterInput size? query?).query (parseFilterInput size? query?).size))]
      ∧ strContains frag
          ("href=\"" ++ escapeHtml (buildFilterUrl ("/search-server-patch")
              (parseFilterInput size? query?).query (parseFilterInput size? query?).size)
            ++ "\"") = true := by
  refine ⟨_, rfl, ?_⟩
  apply strContains_append_right
  apply strContains_append_right
  apply strContains_append_left
  apply strContains_append_right
  apply strContains_append_left
  exact strContains_refl _

end GetToGetting
